import Mathlib

/-!
Verification development for the 2-7 Triple Draw opening-hand trainer.

The embedding below mirrors the two application variants:
the single-position evaluator (`evaluateUTGHand`) and the multi-position
evaluator with range notation and positional inheritance
(`interpretBetterHand`, `getFullStrategy`, `evaluateHandForPosition`).
Card values are embedded as `Int` (JS numbers), suits as `Nat` (only
equality of suits is ever observed), and range notations as `String`.
-/

namespace TripleDraw

/-- Ascending numeric sort, modelling the JS `sort((a, b) => a - b)` calls. -/
def sortAsc (l : List Int) : List Int :=
  l.insertionSort (fun a b => a ≤ b)

/-- Descending numeric sort, modelling the JS `sort((a, b) => b - a)` calls. -/
def sortDesc (l : List Int) : List Int :=
  l.insertionSort (fun a b => b ≤ a)

/-- Comparison loop of `compareLowballHands`: walk the two (already sorted)
lists in parallel and return the first nonzero difference `a - b`, or `0`
when no position differs.  The JS loop runs over the first list's indices;
the mixed-length case (where JS would read `undefined` and return `NaN`)
never arises because every call site compares equal-length lists (the spec
declares unequal lengths undefined behaviour). -/
def lexDiff : List Int → List Int → Int
  | [], _ => 0
  | _ :: _, [] => 0
  | a :: as, b :: bs => if a = b then lexDiff as bs else a - b

/-- JS `compareLowballHands(hand1, hand2)`: sort both hands high-to-low and
compare element by element; the first differing position decides, returning
the raw difference `sorted1[i] - sorted2[i]`; equal sequences give 0. -/
def compareLowballHands (hand1 hand2 : List Int) : Int :=
  lexDiff (sortDesc hand1) (sortDesc hand2)

theorem lexDiff_antisymm : ∀ xs ys : List Int, lexDiff xs ys = - lexDiff ys xs
  | [], [] => by simp [lexDiff]
  | [], _ :: _ => by simp [lexDiff]
  | _ :: _, [] => by simp [lexDiff]
  | a :: as, b :: bs => by
    by_cases h : a = b
    · subst h
      simpa [lexDiff] using lexDiff_antisymm as bs
    · have h' : ¬ b = a := fun hh => h hh.symm
      simp only [lexDiff, if_neg h, if_neg h']
      omega

theorem lexDiff_eq_zero_iff :
    ∀ xs ys : List Int, xs.length = ys.length → (lexDiff xs ys = 0 ↔ xs = ys)
  | [], [], _ => by simp [lexDiff]
  | [], _ :: _, h => by simp at h
  | _ :: _, [], h => by simp at h
  | a :: as, b :: bs, h => by
    by_cases hab : a = b
    · subst hab
      have ih := lexDiff_eq_zero_iff as bs (by simpa using h)
      simp [lexDiff, ih]
    · simp only [lexDiff, if_neg hab, List.cons.injEq]
      constructor
      · intro hz
        exact absurd (by omega : a = b) hab
      · rintro ⟨hz, -⟩
        exact absurd hz hab

theorem lexDiff_trans :
    ∀ xs ys zs : List Int, xs.length = ys.length → ys.length = zs.length →
      lexDiff xs ys ≤ 0 → lexDiff ys zs ≤ 0 → lexDiff xs zs ≤ 0
  | [], [], [], _, _, _, _ => by simp [lexDiff]
  | [], [], _ :: _, _, h2, _, _ => by simp at h2
  | [], _ :: _, _, h1, _, _, _ => by simp at h1
  | _ :: _, [], _, h1, _, _, _ => by simp at h1
  | _ :: _, _ :: _, [], _, h2, _, _ => by simp at h2
  | a :: as, b :: bs, c :: cs, h1, h2, hxy, hyz => by
    by_cases hab : a = b <;> by_cases hbc : b = c
    · subst hab; subst hbc
      simp only [lexDiff, if_pos rfl] at hxy hyz ⊢
      exact lexDiff_trans as bs cs (by simpa using h1) (by simpa using h2) hxy hyz
    · subst hab
      simp only [lexDiff, if_neg hbc] at hyz ⊢
      exact hyz
    · subst hbc
      simp only [lexDiff, if_neg hab] at hxy ⊢
      exact hxy
    · simp only [lexDiff, if_neg hab] at hxy
      simp only [lexDiff, if_neg hbc] at hyz
      have hac : ¬ a = c := by omega
      simp only [lexDiff, if_neg hac]
      omega

/-- C2: for equal-length integer lists, exactly one of
`compareLowballHands(A,B) < 0`, `= 0`, `> 0` holds; the comparison is
antisymmetric (`compare A B` is the negation of `compare B A`); and the
induced `compare ≤ 0` relation is transitive. -/
theorem comparator_total_order (A B C : List Int)
    (hAB : A.length = B.length) (hBC : B.length = C.length) :
    ((compareLowballHands A B < 0 ∧ ¬ compareLowballHands A B = 0 ∧
        ¬ 0 < compareLowballHands A B) ∨
     (¬ compareLowballHands A B < 0 ∧ compareLowballHands A B = 0 ∧
        ¬ 0 < compareLowballHands A B) ∨
     (¬ compareLowballHands A B < 0 ∧ ¬ compareLowballHands A B = 0 ∧
        0 < compareLowballHands A B)) ∧
    compareLowballHands A B = - compareLowballHands B A ∧
    (compareLowballHands A B ≤ 0 → compareLowballHands B C ≤ 0 →
      compareLowballHands A C ≤ 0) := by
  refine ⟨?_, ?_, ?_⟩
  · omega
  · exact lexDiff_antisymm _ _
  · exact lexDiff_trans _ _ _ (by simp [sortDesc, hAB]) (by simp [sortDesc, hBC])

/-- Witness for C2 at concrete equal-length hands. -/
theorem comparator_total_order_witness :
    (([8, 5, 4, 3, 2] : List Int).length = ([8, 6, 4, 3, 2] : List Int).length) ∧
    (([8, 6, 4, 3, 2] : List Int).length = ([9, 8, 7, 6, 5] : List Int).length) ∧
    (((compareLowballHands [8, 5, 4, 3, 2] [8, 6, 4, 3, 2] < 0 ∧
        ¬ compareLowballHands [8, 5, 4, 3, 2] [8, 6, 4, 3, 2] = 0 ∧
        ¬ 0 < compareLowballHands [8, 5, 4, 3, 2] [8, 6, 4, 3, 2]) ∨
      (¬ compareLowballHands [8, 5, 4, 3, 2] [8, 6, 4, 3, 2] < 0 ∧
        compareLowballHands [8, 5, 4, 3, 2] [8, 6, 4, 3, 2] = 0 ∧
        ¬ 0 < compareLowballHands [8, 5, 4, 3, 2] [8, 6, 4, 3, 2]) ∨
      (¬ compareLowballHands [8, 5, 4, 3, 2] [8, 6, 4, 3, 2] < 0 ∧
        ¬ compareLowballHands [8, 5, 4, 3, 2] [8, 6, 4, 3, 2] = 0 ∧
        0 < compareLowballHands [8, 5, 4, 3, 2] [8, 6, 4, 3, 2])) ∧
     compareLowballHands [8, 5, 4, 3, 2] [8, 6, 4, 3, 2] =
       - compareLowballHands [8, 6, 4, 3, 2] [8, 5, 4, 3, 2] ∧
     (compareLowballHands [8, 5, 4, 3, 2] [8, 6, 4, 3, 2] ≤ 0 →
       compareLowballHands [8, 6, 4, 3, 2] [9, 8, 7, 6, 5] ≤ 0 →
       compareLowballHands [8, 5, 4, 3, 2] [9, 8, 7, 6, 5] ≤ 0)) :=
  ⟨rfl, rfl, comparator_total_order [8, 5, 4, 3, 2] [8, 6, 4, 3, 2] [9, 8, 7, 6, 5] rfl rfl⟩

/-- Counterexample for C3: the comparator does not land in `{-1, 0, 1}`:
on the equal-length hands 9-7-6-5-4 and 6-5-4-3-2 it returns the raw
difference `9 - 6 = 3`. -/
theorem comparator_codomain_counterexample :
    compareLowballHands [9, 7, 6, 5, 4] [6, 5, 4, 3, 2] = 3 ∧
    ¬ (compareLowballHands [9, 7, 6, 5, 4] [6, 5, 4, 3, 2] = -1 ∨
       compareLowballHands [9, 7, 6, 5, 4] [6, 5, 4, 3, 2] = 0 ∨
       compareLowballHands [9, 7, 6, 5, 4] [6, 5, 4, 3, 2] = 1) := by
  decide

/-- C3 (amended): the comparator returns an arbitrary-magnitude integer
difference (not a value in `{-1, 0, 1}`); for equal-length integer lists it
returns 0 exactly when the descending-sorted sequences are equal. -/
theorem comparator_zero_iff_sorted_eq (a b : List Int) (h : a.length = b.length) :
    compareLowballHands a b = 0 ↔ sortDesc a = sortDesc b :=
  lexDiff_eq_zero_iff _ _ (by simp [sortDesc, h])

/-- Witness for the amended C3 at concrete equal-length lists. -/
theorem comparator_zero_iff_sorted_eq_witness :
    (([3, 2] : List Int).length = ([2, 3] : List Int).length) ∧
    (compareLowballHands [3, 2] [2, 3] = 0 ↔ sortDesc [3, 2] = sortDesc [2, 3]) :=
  ⟨rfl, comparator_zero_iff_sorted_eq [3, 2] [2, 3] rfl⟩

/-- Card as evaluated: its 2-7 integer value (2..9 themselves, T=10, J=11,
Q=12, K=13, A=14) and a suit identifier.  Evaluation only ever compares
suits for equality, so suits are embedded as `Nat`. -/
structure HandCard where
  value : Int
  suit : Nat
deriving DecidableEq, Repr

/-- JS `hand.map(card => card.value).sort((a, b) => a - b)`. -/
def valuesOf (hand : List HandCard) : List Int :=
  sortAsc (hand.map HandCard.value)

/-- JS `hand.map(card => card.suit)`. -/
def suitsOf (hand : List HandCard) : List Nat :=
  hand.map HandCard.suit

/-- JS `Array.from(new Set(values)).sort((a, b) => a - b)`: the distinct
values in ascending order. -/
def uniqOfVals (values : List Int) : List Int :=
  sortAsc values.dedup

/-- JS `hasPair`: some value occurs at least twice (built from the
`valueCounts` occurrence map, `Object.values(valueCounts).some(c => c > 1)`). -/
def hasPairB (values : List Int) : Bool :=
  values.any (fun v => decide (2 ≤ values.count v))

/-- JS `hasFlush`: `new Set(suits).size === 1`, all suits identical. -/
def hasFlushB (suits : List Nat) : Bool :=
  suits.dedup.length == 1

/-- Inner loop of `isStraight`: consecutive-integer check of a window. -/
def consecChk : List Int → Bool
  | [] => true
  | [_] => true
  | a :: b :: rest => (b == a + 1) && consecChk (b :: rest)

/-- JS `isStraight(vals)`: false when fewer than five entries or fewer than
five distinct values; otherwise some sliding 5-window of the distinct sorted
values is consecutive. -/
def isStraightB (vals : List Int) : Bool :=
  if vals.length < 5 then false
  else if (sortAsc vals.dedup).length < 5 then false
  else (List.range ((sortAsc vals.dedup).length - 4)).any
    (fun i => consecChk (((sortAsc vals.dedup).drop i).take 5))

/-- Shape gate of the pat-hand branch in both variants:
`!hasPair && !hasFlush && !hasStraightInHand && !hasWheel`, where `hasWheel`
is `values.toString() === "2,3,4,5,14"` on the ascending-sorted values. -/
def shapeOkB (values : List Int) (suits : List Nat) : Bool :=
  !hasPairB values && !hasFlushB suits && !isStraightB values &&
    !(values == [2, 3, 4, 5, 14])

/-- JS `Math.max(...testHand)`.  The default is an arbitrary very small
number standing in for `-Infinity`; every call site passes a nonempty list. -/
def listMax (l : List Int) : Int :=
  l.foldl max (-1000000000)

/-- JS `list.join("")` on a list of card values. -/
def joinVals (l : List Int) : String :=
  String.join (l.map toString)

/-- JS `list.join(", ")` on a list of card values. -/
def joinValsComma (l : List Int) : String :=
  String.intercalate ", " (l.map toString)

/-- JS `Number.parseInt(c)` for a single digit character. -/
def charDigitVal (c : Char) : Int :=
  Int.ofNat (c.toNat - 48)

/-- Regex `^\d+s\+$`: one or more digits, then `s`, then `+`. -/
def matchNsPlus (p : String) : Bool :=
  decide (3 ≤ p.data.length) &&
    (p.data.take (p.data.length - 2)).all Char.isDigit &&
    (p.data.drop (p.data.length - 2) == ['s', '+'])

/-- Regex `^\d{4}\+$`: exactly four digits then `+`. -/
def match4Plus (p : String) : Bool :=
  (p.data.length == 5) && (p.data.take 4).all Char.isDigit &&
    (p.data.getD 4 ' ' == '+')

/-- Regex `^\d{3}\+$`: exactly three digits then `+`. -/
def match3Plus (p : String) : Bool :=
  (p.data.length == 4) && (p.data.take 3).all Char.isDigit &&
    (p.data.getD 3 ' ' == '+')

/-- JS `pattern.includes("22")`: substring search for two adjacent 2s. -/
def hasSub22 : List Char → Bool
  | [] => false
  | [_] => false
  | a :: b :: rest => (a == '2' && b == '2') || hasSub22 (b :: rest)

/-- JS `interpretBetterHand(pattern, testHand)`: the range-notation
interpreter of the multi-position variant.  The branches are tried in source
order; note that the fourth branch (blocker-pair literal, guarded by
`^\d{4}\+$` AND a `"22"` substring) is unreachable because the second branch
already returns for every `^\d{4}\+$` pattern. -/
def interpretBetterHand (pattern : String) (testHand : List Int) : Bool :=
  if matchNsPlus pattern then
    decide (listMax testHand ≤ charDigitVal (pattern.data.headD '0'))
  else if match4Plus pattern then
    decide (compareLowballHands testHand
      (sortAsc ((pattern.data.take 4).map charDigitVal)) ≤ 0)
  else if match3Plus pattern then
    decide (compareLowballHands testHand
      (sortAsc ((pattern.data.take 3).map charDigitVal)) ≤ 0)
  else if match4Plus pattern && hasSub22 pattern.data then
    testHand.contains (charDigitVal (pattern.data.getD 0 '0')) &&
      testHand.contains (charDigitVal (pattern.data.getD 1 '0')) &&
      decide (2 ≤ (testHand.filter
        (fun x => x == charDigitVal (pattern.data.getD 2 '0'))).length)
  else false

/-- Classification result of the single-position variant's `evaluateUTGHand`. -/
structure EvalResult where
  isPlayable : Bool
  correctAction : String
  category : String
  explanation : String
deriving DecidableEq, Repr

/-- Four best cards of the Draw-1 check, from the distinct ascending values:
with exactly 4 distinct values they are the draw; with exactly 5, the single
highest is dropped; otherwise there is no Draw-1 candidate. -/
def fourBestOf (uniq : List Int) : Option (List Int) :=
  if uniq.length == 4 then some uniq
  else if uniq.length == 5 then some (uniq.take 4)
  else none

/-- Draw-2 candidate: only when the hand contains a 2; the best 3-card draw
is the 2 plus the two lowest other distinct values (JS builds
`threeCardDraws` with at most this one entry). -/
def draw2Cand (values uniq : List Int) : Option (List Int) :=
  if values.contains 2 then
    if 3 ≤ uniq.length then
      if 2 ≤ (uniq.filter (fun v => !(v == 2))).length then
        some [2, (uniq.filter (fun v => !(v == 2))).getD 0 0,
              (uniq.filter (fun v => !(v == 2))).getD 1 0]
      else none
    else none
  else none

/-- Draw-2 benchmarks of the single-position variant, in object-literal
insertion order. -/
def utgDraw2Benchmarks : List (String × List Int) :=
  [("542", [5, 4, 2]), ("752", [7, 5, 2]), ("842", [8, 4, 2])]

/-- Pat-hand result of branch ① of `evaluateUTGHand`. -/
def utgPatResult (highCard : Int) : EvalResult :=
  { isPlayable := true, correctAction := "raise",
    category := "Pat " ++ toString highCard ++ "-high",
    explanation := "A pat " ++ toString highCard ++
      "-high is a strong made hand. A standard raise from UTG." }

/-- Trap-hand fold of branch ② of `evaluateUTGHand`. -/
def utgTrapResult : EvalResult :=
  { isPlayable := false, correctAction := "fold",
    category := "x7654 Trap Hand",
    explanation :=
      "This hand draws to a straight (76543) and is a dangerous trap. Always fold." }

/-- Draw-1 raise of branch ③ of `evaluateUTGHand`. -/
def utgDraw1Result (fb : List Int) : EvalResult :=
  { isPlayable := true, correctAction := "raise",
    category := "Draw 1 (" ++ joinVals fb ++ ")",
    explanation := "This hand has a four-card draw (" ++ joinValsComma fb ++
      ") that is 8654 or better. This is a strong Draw 1." }

/-- Special blocker raise of branch ④ of `evaluateUTGHand`. -/
def utgSpecialRaise (is632 : Bool) : EvalResult :=
  { isPlayable := true, correctAction := "raise",
    category := "Draw 2 (Special Blocker)",
    explanation := "A hand like " ++ (if is632 then "632" else "762") ++
      " with a pair of 2s is a playable Draw 2 due to the blocker effect." }

/-- Special weak-draw fold of branch ④ of `evaluateUTGHand`. -/
def utgSpecialFold (is632 : Bool) : EvalResult :=
  { isPlayable := false, correctAction := "fold",
    category := "Weak Draw 2",
    explanation := "A hand like " ++ (if is632 then "632" else "762") ++
      " without a pair of 2s is too weak to play from UTG." }

/-- General Draw-2 raise of branch ⑤ of `evaluateUTGHand`. -/
def utgDraw2Result (benchName : String) (cand : List Int) : EvalResult :=
  { isPlayable := true, correctAction := "raise",
    category := "Draw 2 (" ++ benchName ++ "+)",
    explanation := "This hand has a three-card draw (" ++ joinValsComma cand ++
      ") that is " ++ benchName ++ " or better. This is a standard Draw 2." }

/-- Blocker raise 3322x of branch ⑥ of `evaluateUTGHand`. -/
def utgBlocker3322 : EvalResult :=
  { isPlayable := true, correctAction := "raise",
    category := "Draw 3 (3322x Blocker)",
    explanation :=
      "This hand has strong blockers (two 2s and two 3s) and is a playable Draw 3." }

/-- Blocker raise k222x of branch ⑥ of `evaluateUTGHand`. -/
def utgBlocker222 (kicker : Int) : EvalResult :=
  { isPlayable := true, correctAction := "raise",
    category := "Draw 3 (" ++ toString kicker ++ "222x Blocker)",
    explanation :=
      "With three 2s, this hand has a powerful blocker effect, making it a playable Draw 3." }

/-- Default fold of `evaluateUTGHand`. -/
def utgFoldDefault : EvalResult :=
  { isPlayable := false, correctAction := "fold",
    category := "Fold",
    explanation :=
      "This hand does not meet the minimum requirements to be played from UTG." }

/-- Branch ② condition: at least four distinct values whose four lowest are
the literal ascending sequence 4,5,6,7 (JS `fourLowest.toString() === "4,5,6,7"`). -/
def utgTrapCond (values : List Int) : Bool :=
  decide (4 ≤ (uniqOfVals values).length) &&
    ((uniqOfVals values).take 4 == [4, 5, 6, 7])

/-- Branch ③: the Draw-1 check of the single-position variant against the
fixed benchmark 8-6-5-4. -/
def utgDraw1 (values : List Int) : Option EvalResult :=
  match fourBestOf (uniqOfVals values) with
  | some fb =>
    if !isStraightB fb && decide (compareLowballHands fb [8, 6, 5, 4] ≤ 0) then
      some (utgDraw1Result fb)
    else none
  | none => none

/-- Branch ④ 632-shape condition: exactly five distinct values containing
6, 3 and 2 with the high card above 8. -/
def utgSpecial632 (values : List Int) : Bool :=
  ((uniqOfVals values).length == 5) && values.contains 6 && values.contains 3 &&
    values.contains 2 && decide (8 < listMax values)

/-- Branch ④ 762-shape condition: exactly five distinct values containing
7, 6 and 2 with the high card above 8. -/
def utgSpecial762 (values : List Int) : Bool :=
  ((uniqOfVals values).length == 5) && values.contains 7 && values.contains 6 &&
    values.contains 2 && decide (8 < listMax values)

/-- Branch ⑤: the general Draw-2 check of the single-position variant,
trying the benchmarks in declared order, first match winning. -/
def utgDraw2 (values : List Int) : Option EvalResult :=
  match draw2Cand values (uniqOfVals values) with
  | some cand =>
    (utgDraw2Benchmarks.find?
        (fun nb => decide (compareLowballHands cand nb.2 ≤ 0))).map
      (fun nb => utgDraw2Result nb.1 cand)
  | none => none

/-- Branch ⑥: the exceptional blocker raises (two 2s + two 3s, or three 2s
with a 3/4/7 kicker, the kicker being the first such value in ascending
order). -/
def utgBlockerCheck (values : List Int) : Option EvalResult :=
  if decide (2 ≤ values.count 2) && decide (2 ≤ values.count 3) then
    some utgBlocker3322
  else if decide (3 ≤ values.count 2) &&
      (values.contains 3 || values.contains 4 || values.contains 7) then
    some (utgBlocker222 ((values.find? (fun v => v == 3 || v == 4 || v == 7)).getD 0))
  else none

/-- Decision chain of `evaluateUTGHand` on the precomputed ascending values
and the suit list: pat check, trap-hand fold, Draw 1, special 632/762
blocker carve-out, Draw 2, blocker raises, default fold — first match wins. -/
def utgEval (values : List Int) (suits : List Nat) : EvalResult :=
  if shapeOkB values suits && decide (values.getD 4 0 ≤ 8) then
    utgPatResult (values.getD 4 0)
  else if utgTrapCond values then utgTrapResult
  else
    match utgDraw1 values with
    | some r => r
    | none =>
      if utgSpecial632 values || utgSpecial762 values then
        (if decide (2 ≤ values.count 2) then utgSpecialRaise (utgSpecial632 values)
         else utgSpecialFold (utgSpecial632 values))
      else
        match utgDraw2 values with
        | some r => r
        | none =>
          match utgBlockerCheck values with
          | some r => r
          | none => utgFoldDefault

/-- JS `evaluateUTGHand(hand)` of the single-position variant. -/
def evaluateUTGHand (hand : List HandCard) : EvalResult :=
  utgEval (valuesOf hand) (suitsOf hand)

/-- Range of a draw category: include patterns and exclude patterns. -/
structure HandRange where
  includes : List String
  excludes : List String
deriving DecidableEq, Repr

/-- Per-position strategy record of the multi-position variant. -/
structure PositionStrategy where
  position : String
  patHands : HandRange
  draw1Hands : HandRange
  draw2Hands : HandRange
  draw3Hands : HandRange
  draw4Hands : HandRange
  inheritsFrom : Option String
deriving DecidableEq, Repr

/-- Built-in UTG strategy of the multi-position variant. -/
def utgStrategy : PositionStrategy :=
  { position := "UTG",
    patHands := ⟨["8s+"], []⟩,
    draw1Hands := ⟨["8654+"], ["7654"]⟩,
    draw2Hands := ⟨["542+", "752+", "842+", "6322+", "7622+"], []⟩,
    draw3Hands := ⟨["3222", "3322", "3332", "4222", "7222"], []⟩,
    draw4Hands := ⟨[], []⟩,
    inheritsFrom := none }

/-- Built-in HJ strategy, inheriting from UTG. -/
def hjStrategy : PositionStrategy :=
  { position := "HJ",
    patHands := ⟨[], []⟩,
    draw1Hands := ⟨["8753", "8754"], []⟩,
    draw2Hands := ⟨["762", "852", "753", "6322", "8722"], []⟩,
    draw3Hands := ⟨["3222", "3322", "4422", "5222", "7722"], []⟩,
    draw4Hands := ⟨[], []⟩,
    inheritsFrom := some "UTG" }

/-- Built-in CO strategy, inheriting from HJ. -/
def coStrategy : PositionStrategy :=
  { position := "CO",
    patHands := ⟨["96543", "97654"], []⟩,
    draw1Hands := ⟨[], []⟩,
    draw2Hands := ⟨["632", "754", "854", "872"], []⟩,
    draw3Hands := ⟨["32", "42", "72", "522"], []⟩,
    draw4Hands := ⟨[], []⟩,
    inheritsFrom := some "HJ" }

/-- Built-in BTN strategy, inheriting from CO. -/
def btnStrategy : PositionStrategy :=
  { position := "BTN",
    patHands := ⟨["T9875", "T8765", "T7654", "T6543"], []⟩,
    draw1Hands := ⟨["all"], []⟩,
    draw2Hands := ⟨["all"], ["654", "765", "876"]⟩,
    draw3Hands := ⟨["52", "622", "822"], []⟩,
    draw4Hands := ⟨["22"], []⟩,
    inheritsFrom := some "CO" }

/-- Built-in SB strategy, inheriting from BTN. -/
def sbStrategy : PositionStrategy :=
  { position := "SB",
    patHands := ⟨[], []⟩,
    draw1Hands := ⟨[], []⟩,
    draw2Hands := ⟨["limp/raise strategy"], []⟩,
    draw3Hands := ⟨["limp/raise strategy"], []⟩,
    draw4Hands := ⟨["limp 2", "33-55"], []⟩,
    inheritsFrom := some "BTN" }

/-- Built-in BB strategy, inheriting from SB. -/
def bbStrategy : PositionStrategy :=
  { position := "BB",
    patHands := ⟨[], []⟩,
    draw1Hands := ⟨[], []⟩,
    draw2Hands := ⟨["vs SB limp: any d2"], []⟩,
    draw3Hands := ⟨["vs SB limp: 63+"], []⟩,
    draw4Hands := ⟨[], []⟩,
    inheritsFrom := some "SB" }

/-- Built-in per-position strategy table of the multi-position variant. -/
def positionStrategies : List PositionStrategy :=
  [utgStrategy, hjStrategy, coStrategy, btnStrategy, sbStrategy, bbStrategy]

/-- Concatenation of a resolved parent range with the child's own range,
parent entries first (they keep first-match priority). -/
def mergeRanges (parent current : HandRange) : HandRange :=
  ⟨parent.includes ++ current.includes, parent.excludes ++ current.excludes⟩

/-- Merge step of `getFullStrategy`: the JS spread `{...strategy, ...}`
keeps the child's `position` and `inheritsFrom` and replaces every range by
parent-then-child concatenation. -/
def mergeStrategies (parent current : PositionStrategy) : PositionStrategy :=
  { current with
    patHands := mergeRanges parent.patHands current.patHands,
    draw1Hands := mergeRanges parent.draw1Hands current.draw1Hands,
    draw2Hands := mergeRanges parent.draw2Hands current.draw2Hands,
    draw3Hands := mergeRanges parent.draw3Hands current.draw3Hands,
    draw4Hands := mergeRanges parent.draw4Hands current.draw4Hands }

/-- Fuel-indexed resolver embedding JS `getFullStrategy`.  The JS function
recurses on `inheritsFrom` with no cycle detection or memoization; `none`
here marks exactly the computations that exhaust the fuel, i.e. recursions
the JS original would never complete.  An unknown position name returns the
FIRST configured strategy unchanged (JS `return positionStrategies[0]`) —
there is no error channel of any kind in the source. -/
def getFullStrategyFuel (cfg : List PositionStrategy) :
    Nat → String → Option PositionStrategy
  | 0, _ => none
  | fuel + 1, pos =>
    match cfg.find? (fun s => s.position == pos) with
    | none => cfg.head?
    | some strategy =>
      match strategy.inheritsFrom with
      | none => some strategy
      | some parent =>
        match getFullStrategyFuel cfg fuel parent with
        | none => none
        | some parentStrategy => some (mergeStrategies parentStrategy strategy)

/-- Positions of the multi-position learning variant. -/
inductive LearningPosition where
  | UTG
  | HJ
  | CO
  | BTN
  | SB
  | BB
deriving DecidableEq, Repr

/-- Name string of a learning position. -/
def posName : LearningPosition → String
  | .UTG => "UTG"
  | .HJ => "HJ"
  | .CO => "CO"
  | .BTN => "BTN"
  | .SB => "SB"
  | .BB => "BB"

/-- Resolved strategy used by the classifier for a known position.  The
built-in inheritance chain UTG ← HJ ← CO ← BTN ← SB ← BB is acyclic with six
positions, so fuel 6 always suffices and the `getD` fallback is dead (see
the resolver lemmas below). -/
def strategyFor (p : LearningPosition) : PositionStrategy :=
  (getFullStrategyFuel positionStrategies 6 (posName p)).getD utgStrategy

/-- Classification result of the multi-position variant's
`evaluateHandForPosition`. -/
structure EvalResultPos where
  isPlayable : Bool
  correctAction : String
  category : String
  explanation : String
  ruleUsed : String
  benchmark : Option String
  minimumRaiseExample : Option String
deriving DecidableEq, Repr

/-- JS `getMinimumRaiseExample(position)` computed from the resolved
strategy: first declared include of the pat, draw-1 and draw-2 categories,
used purely for fold-explanation text. -/
def getMinimumRaiseExampleFrom (strategy : PositionStrategy) : String :=
  if ((if 0 < strategy.patHands.includes.length then
        ["Pat: " ++ strategy.patHands.includes.getD 0 ""] else []) ++
      (if 0 < strategy.draw1Hands.includes.length then
        ["Draw1: " ++ strategy.draw1Hands.includes.getD 0 ""] else []) ++
      (if 0 < strategy.draw2Hands.includes.length then
        ["Draw2: " ++ strategy.draw2Hands.includes.getD 0 ""] else [])).isEmpty then
    "Minimum playable hand for this position"
  else
    String.intercalate ", "
      ((if 0 < strategy.patHands.includes.length then
          ["Pat: " ++ strategy.patHands.includes.getD 0 ""] else []) ++
       (if 0 < strategy.draw1Hands.includes.length then
          ["Draw1: " ++ strategy.draw1Hands.includes.getD 0 ""] else []) ++
       (if 0 < strategy.draw2Hands.includes.length then
          ["Draw2: " ++ strategy.draw2Hands.includes.getD 0 ""] else []))

/-- First include pattern matching the full 5-card values under
`interpretBetterHand` — the pat-hand include scan. -/
def patScan (includes : List String) (values : List Int) : Option String :=
  includes.find? (fun p => interpretBetterHand p values)

/-- Pat-hand raise result of the multi-position variant. -/
def mkPatResult (posStr : String) (values : List Int) (pattern : String) :
    EvalResultPos :=
  { isPlayable := true, correctAction := "raise",
    category := "Pat " ++ toString (values.getD 4 0) ++ "-high",
    explanation := "This pat hand meets the " ++ pattern ++ " requirement. " ++
      (if posStr == "UTG" then "Standard range." else "Inherited from parent position."),
    ruleUsed := (if posStr == "UTG" then "Pat Range (" else "Inherited Pat Range (") ++
      pattern ++ ")",
    benchmark := some pattern,
    minimumRaiseExample := none }

/-- Pat-hand phase: only when the shape gate passes, scan the resolved pat
includes in order. -/
def patPhase (strategy : PositionStrategy) (posStr : String) (values : List Int)
    (suits : List Nat) : Option EvalResultPos :=
  if shapeOkB values suits then
    match patScan strategy.patHands.includes values with
    | some pattern => some (mkPatResult posStr values pattern)
    | none => none
  else none

/-- Predicate of the Draw-1 include scan: the literal `"all"` wildcard is
special-cased here (and only here), before `interpretBetterHand`. -/
def draw1Hit (p : String) (fb : List Int) : Bool :=
  p == "all" || interpretBetterHand p fb

/-- Exclusion fold of the Draw-1 phase. -/
def mkDraw1Excluded (strategy : PositionStrategy) (posStr : String) : EvalResultPos :=
  { isPlayable := false, correctAction := "fold",
    category := "Draw 1 Excluded (7654)",
    explanation := "7654 is specifically excluded from the Draw 1 range.",
    ruleUsed := posStr ++ " Draw 1 Exclusion",
    benchmark := some "7654 excluded",
    minimumRaiseExample := some (getMinimumRaiseExampleFrom strategy) }

/-- Draw-1 include-pattern raise result. -/
def mkDraw1Include (posStr : String) (fb : List Int) (pattern : String) :
    EvalResultPos :=
  { isPlayable := true, correctAction := "raise",
    category := "Draw 1 (" ++ joinVals fb ++ ")",
    explanation := "This draw 1 meets the " ++ pattern ++ " requirement. " ++
      (if posStr == "UTG" then "Standard range." else "Inherited from parent position."),
    ruleUsed := (if posStr == "UTG" then "Draw 1 (" else "Inherited Draw 1 (") ++
      pattern ++ ")",
    benchmark := some pattern,
    minimumRaiseExample := none }

/-- Draw-1 specific-literal raise result. -/
def mkDraw1Specific (posStr : String) (fb : List Int) : EvalResultPos :=
  { isPlayable := true, correctAction := "raise",
    category := "Draw 1 (" ++ joinVals fb ++ ")",
    explanation := joinVals fb ++ " is specifically included in the " ++
      posStr ++ " range.",
    ruleUsed := posStr ++ " Draw 1 Specific",
    benchmark := some (joinVals fb),
    minimumRaiseExample := none }

/-- Exclusion condition of the Draw-1 phase: JS enters the exclusion block
when the resolved excludes contain the candidate's join string or the
literal "7654", and folds inside it only when the join string is exactly
"4567". -/
def draw1ExclCond (excludes : List String) (fb : List Int) : Bool :=
  (excludes.contains (joinVals fb) || excludes.contains "7654") &&
    (joinVals fb == "4567")

/-- Draw-1 phase of `evaluateHandForPosition`: compute the four best cards,
skip when they form a straight, fold the literal 4567 draw when the resolved
excludes name it (or name `"7654"`), otherwise scan includes (wildcard or
benchmark) and finally the specific-literal membership test. -/
def draw1Phase (strategy : PositionStrategy) (posStr : String) (uniq : List Int) :
    Option EvalResultPos :=
  match fourBestOf uniq with
  | none => none
  | some fb =>
    if isStraightB fb then none
    else if draw1ExclCond strategy.draw1Hands.excludes fb then
      some (mkDraw1Excluded strategy posStr)
    else
      match strategy.draw1Hands.includes.find? (fun p => draw1Hit p fb) with
      | some pattern => some (mkDraw1Include posStr fb pattern)
      | none =>
        if strategy.draw1Hands.includes.contains (joinVals fb) then
          some (mkDraw1Specific posStr fb)
        else none

/-- Draw-2 raise result of the multi-position variant. -/
def mkDraw2Result (posStr : String) (cand : List Int) (pattern : String) :
    EvalResultPos :=
  { isPlayable := true, correctAction := "raise",
    category := "Draw 2 (" ++ joinVals cand ++ ")",
    explanation := "This draw 2 meets the " ++ pattern ++ " requirement. " ++
      (if posStr == "UTG" then "Standard range." else "Inherited from parent position."),
    ruleUsed := (if posStr == "UTG" then "Draw 2 (" else "Inherited Draw 2 (") ++
      pattern ++ ")",
    benchmark := some pattern,
    minimumRaiseExample := none }

/-- Draw-2 phase of `evaluateHandForPosition`: the include scan runs
`interpretBetterHand` alone — no `"all"` special case and no exclude check. -/
def draw2Phase (strategy : PositionStrategy) (posStr : String)
    (values uniq : List Int) : Option EvalResultPos :=
  match draw2Cand values uniq with
  | none => none
  | some cand =>
    match strategy.draw2Hands.includes.find? (fun p => interpretBetterHand p cand) with
    | some pattern => some (mkDraw2Result posStr cand pattern)
    | none => none

/-- Default fold of `evaluateHandForPosition`. -/
def mkFoldDefault (strategy : PositionStrategy) (posStr : String) : EvalResultPos :=
  { isPlayable := false, correctAction := "fold",
    category := "Fold",
    explanation := "This hand does not meet the minimum requirements for " ++
      posStr ++ ".",
    ruleUsed := posStr ++ " Minimum Standards",
    benchmark := some ("Below " ++ posStr ++ " threshold"),
    minimumRaiseExample := some (getMinimumRaiseExampleFrom strategy) }

/-- Decision chain of `evaluateHandForPosition` on the precomputed values
and suits, for a given resolved strategy: pat phase, Draw-1 phase, Draw-2
phase, default fold — first phase producing a result wins. -/
def evalCore (strategy : PositionStrategy) (posStr : String) (values : List Int)
    (suits : List Nat) : EvalResultPos :=
  match patPhase strategy posStr values suits with
  | some r => r
  | none =>
    match draw1Phase strategy posStr (uniqOfVals values) with
    | some r => r
    | none =>
      match draw2Phase strategy posStr values (uniqOfVals values) with
      | some r => r
      | none => mkFoldDefault strategy posStr

/-- JS `evaluateHandForPosition(hand, position)` of the multi-position
variant, with the strategy resolved through the inheritance chain. -/
def evaluateHandForPosition (hand : List HandCard) (p : LearningPosition) :
    EvalResultPos :=
  evalCore (strategyFor p) (posName p) (valuesOf hand) (suitsOf hand)

/-- Empty range used by the synthetic resolver configurations below. -/
def emptyRange : HandRange := ⟨[], []⟩

/-- Position "A" of a synthetic cyclic configuration, inheriting from "B". -/
def cycA : PositionStrategy :=
  { position := "A", patHands := emptyRange, draw1Hands := emptyRange,
    draw2Hands := emptyRange, draw3Hands := emptyRange, draw4Hands := emptyRange,
    inheritsFrom := some "B" }

/-- Position "B" of a synthetic cyclic configuration, inheriting from "A". -/
def cycB : PositionStrategy :=
  { position := "B", patHands := emptyRange, draw1Hands := emptyRange,
    draw2Hands := emptyRange, draw3Hands := emptyRange, draw4Hands := emptyRange,
    inheritsFrom := some "A" }

/-- Configuration whose inheritance chain is the two-cycle A → B → A. -/
def cyclicConfig : List PositionStrategy := [cycA, cycB]

/-- Strategy inheriting from a name that no configured position carries. -/
def orphanX : PositionStrategy :=
  { position := "X", patHands := emptyRange, draw1Hands := emptyRange,
    draw2Hands := emptyRange, draw3Hands := emptyRange, draw4Hands := emptyRange,
    inheritsFrom := some "GHOST" }

/-- Configuration with a dangling `inheritsFrom` reference. -/
def orphanConfig : List PositionStrategy := [orphanX]

theorem cyclic_resolution_never_completes (n : Nat) :
    getFullStrategyFuel cyclicConfig n "A" = none ∧
    getFullStrategyFuel cyclicConfig n "B" = none := by
  induction n with
  | zero => exact ⟨rfl, rfl⟩
  | succ n ih =>
    refine ⟨?_, ?_⟩
    · show (match getFullStrategyFuel cyclicConfig n "B" with
        | none => none
        | some parentStrategy => some (mergeStrategies parentStrategy cycA)) = none
      rw [ih.2]
    · show (match getFullStrategyFuel cyclicConfig n "A" with
        | none => none
        | some parentStrategy => some (mergeStrategies parentStrategy cycB)) = none
      rw [ih.1]

/-- Counterexample for C7: a configuration whose `inheritsFrom` points to an
unknown position does not fail with a resolution error — `getFullStrategy`
silently falls back to `positionStrategies[0]` for the unknown name and
returns a merged strategy as if resolution had succeeded. -/
theorem resolver_counterexample :
    getFullStrategyFuel orphanConfig 2 "X" = some (mergeStrategies orphanX orphanX) := by
  decide

/-- C7 (amended): on the built-in acyclic configuration, resolution of every
known position completes within fuel 6 (the number of positions); on a
cyclic configuration the recursion never completes for any fuel bound (the
JS original would recurse forever — no error is surfaced); and an unknown
`inheritsFrom` reference resolves silently through the
`positionStrategies[0]` fallback instead of failing. -/
theorem resolver_termination_behaviour :
    (∀ p : LearningPosition,
      (getFullStrategyFuel positionStrategies 6 (posName p)).isSome = true) ∧
    (∀ n : Nat, getFullStrategyFuel cyclicConfig n "A" = none) ∧
    (getFullStrategyFuel orphanConfig 2 "X").isSome = true := by
  refine ⟨?_, ?_, ?_⟩
  · intro p
    cases p <;> decide
  · intro n
    exact (cyclic_resolution_never_completes n).1
  · decide

/-- Counterexample for C5: the pattern "6322+" matches the candidate
[5,4,3,2] even though the candidate contains no 6 and only a single 2 — so
the claimed "both base cards present AND at least two copies of the paired
low card" semantics does not govern the interpreter. -/
theorem blocker_pattern_counterexample :
    interpretBetterHand "6322+" [5, 4, 3, 2] = true ∧
    ¬ (6 : Int) ∈ ([5, 4, 3, 2] : List Int) ∧
    ([5, 4, 3, 2] : List Int).count 2 = 1 := by
  decide

/-- C5 (amended): a 4-digit benchmark pattern ending in a repeated low pair
followed by "+" (such as "6322+" or "7622+") is intercepted by the generic
`NNNN+` branch of `interpretBetterHand` and evaluated as a lowball-benchmark
comparison against its four digits; the dedicated blocker-pair branch is
unreachable. -/
theorem blocker_pattern_is_benchmark (t : List Int) :
    interpretBetterHand "6322+" t = decide (compareLowballHands t [2, 2, 3, 6] ≤ 0) ∧
    interpretBetterHand "7622+" t = decide (compareLowballHands t [2, 2, 6, 7] ≤ 0) :=
  ⟨rfl, rfl⟩

/-- Counterexample for C6: the pattern "all" is not a universal match for
every candidate draw — `interpretBetterHand` returns false on it, and a
3-card draw tested against the resolved BTN draw-2 range (whose includes
list contains "all") fails to match: the hand 2-2-9-9-T reaches the Draw-2
check at BTN and folds. -/
theorem all_pattern_counterexample :
    interpretBetterHand "all" [2, 9, 10] = false ∧
    "all" ∈ (strategyFor LearningPosition.BTN).draw2Hands.includes ∧
    (evaluateHandForPosition [⟨2, 0⟩, ⟨2, 1⟩, ⟨9, 0⟩, ⟨9, 1⟩, ⟨10, 2⟩]
      LearningPosition.BTN).isPlayable = false ∧
    (evaluateHandForPosition [⟨2, 0⟩, ⟨2, 1⟩, ⟨9, 0⟩, ⟨9, 1⟩, ⟨10, 2⟩]
      LearningPosition.BTN).correctAction = "fold" := by
  decide

/-- C6 (amended): the pattern "all" is a universal match only in the Draw-1
include scan, where it is special-cased before `interpretBetterHand`; the
interpreter itself returns false for "all" on every candidate, so an "all"
entry in a draw-2 includes list matches no candidate through the Draw-2
scan. -/
theorem all_pattern_draw1_only (fb cand : List Int) :
    draw1Hit "all" fb = true ∧ interpretBetterHand "all" cand = false :=
  ⟨rfl, rfl⟩

/-- Counterexample for C9: the hand 9-6-3-2-2 at UTG is classified through
the general Draw-2 benchmark ("Draw 2 (752+)"), not through the special
632-blocker carve-out: that branch requires five distinct values, which this
hand (four distinct values) fails, so its category never references the
blocker pair of 2s. -/
theorem scenario4_counterexample :
    (evaluateUTGHand [⟨9, 0⟩, ⟨6, 1⟩, ⟨3, 2⟩, ⟨2, 3⟩, ⟨2, 0⟩]).category =
      "Draw 2 (752+)" ∧
    ¬ (evaluateUTGHand [⟨9, 0⟩, ⟨6, 1⟩, ⟨3, 2⟩, ⟨2, 3⟩, ⟨2, 0⟩]).category =
      "Draw 2 (Special Blocker)" ∧
    utgSpecial632 (valuesOf [⟨9, 0⟩, ⟨6, 1⟩, ⟨3, 2⟩, ⟨2, 3⟩, ⟨2, 0⟩]) = false := by
  decide

/-- C9 (amended): every 5-card hand with value multiset [9,6,3,2,2]
(regardless of suits) is playable at UTG with action raise, but through the
general Draw-2 check against the 752 benchmark, with category
"Draw 2 (752+)"; the special 632-blocker shape does not fire because it
requires five distinct values. -/
theorem scenario4_general_draw2 (hand : List HandCard)
    (h : valuesOf hand = [2, 2, 3, 6, 9]) :
    (evaluateUTGHand hand).isPlayable = true ∧
    (evaluateUTGHand hand).correctAction = "raise" ∧
    (evaluateUTGHand hand).category = "Draw 2 (752+)" ∧
    utgSpecial632 (valuesOf hand) = false := by
  unfold evaluateUTGHand
  rw [h]
  exact ⟨rfl, rfl, rfl, rfl⟩

/-- Witness for the amended C9 at a concrete 9-6-3-2-2 hand. -/
theorem scenario4_general_draw2_witness :
    valuesOf [⟨9, 0⟩, ⟨6, 1⟩, ⟨3, 2⟩, ⟨2, 3⟩, ⟨2, 0⟩] = [2, 2, 3, 6, 9] ∧
    ((evaluateUTGHand [⟨9, 0⟩, ⟨6, 1⟩, ⟨3, 2⟩, ⟨2, 3⟩, ⟨2, 0⟩]).isPlayable = true ∧
     (evaluateUTGHand [⟨9, 0⟩, ⟨6, 1⟩, ⟨3, 2⟩, ⟨2, 3⟩, ⟨2, 0⟩]).correctAction = "raise" ∧
     (evaluateUTGHand [⟨9, 0⟩, ⟨6, 1⟩, ⟨3, 2⟩, ⟨2, 3⟩, ⟨2, 0⟩]).category = "Draw 2 (752+)" ∧
     utgSpecial632 (valuesOf [⟨9, 0⟩, ⟨6, 1⟩, ⟨3, 2⟩, ⟨2, 3⟩, ⟨2, 0⟩]) = false) :=
  ⟨by decide, scenario4_general_draw2 [⟨9, 0⟩, ⟨6, 1⟩, ⟨3, 2⟩, ⟨2, 3⟩, ⟨2, 0⟩] (by decide)⟩

/-- C10: `isStraight` returns false on every list with fewer than five
distinct values, and the four-best-cards Draw-1 candidate always has exactly
four entries, so the `!isStraight(fourBestCards)` guard always passes — the
rejecting branch is unreachable. -/
theorem draw1_straight_guard_vacuous :
    (∀ vals : List Int, vals.dedup.length < 5 → isStraightB vals = false) ∧
    (∀ uniq fb : List Int, fourBestOf uniq = some fb →
      fb.length = 4 ∧ isStraightB fb = false) := by
  constructor
  · intro vals h
    unfold isStraightB
    by_cases h5 : vals.length < 5
    · rw [if_pos h5]
    · rw [if_neg h5, if_pos (by simpa [sortAsc] using h)]
  · intro uniq fb h
    have hlen : fb.length = 4 := by
      unfold fourBestOf at h
      by_cases h4 : uniq.length = 4
      · rw [if_pos (by simpa using h4)] at h
        cases h
        exact h4
      · rw [if_neg (by simpa using h4)] at h
        by_cases h5 : uniq.length = 5
        · rw [if_pos (by simpa using h5)] at h
          cases h
          simp [List.length_take, h5]
        · rw [if_neg (by simpa using h5)] at h
          cases h
    refine ⟨hlen, ?_⟩
    unfold isStraightB
    rw [if_pos (by omega)]

/-- Witness for C10 at a concrete paired hand and its four-card draw. -/
theorem draw1_straight_guard_vacuous_witness :
    ([2, 2, 3, 4, 5] : List Int).dedup.length < 5 ∧
    isStraightB [2, 2, 3, 4, 5] = false ∧
    fourBestOf [2, 3, 4, 5] = some [2, 3, 4, 5] ∧
    ([2, 3, 4, 5] : List Int).length = 4 ∧
    isStraightB [2, 3, 4, 5] = false :=
  ⟨by decide, draw1_straight_guard_vacuous.1 [2, 2, 3, 4, 5] (by decide), by decide,
    (draw1_straight_guard_vacuous.2 [2, 3, 4, 5] [2, 3, 4, 5] (by decide)).1,
    (draw1_straight_guard_vacuous.2 [2, 3, 4, 5] [2, 3, 4, 5] (by decide)).2⟩

theorem shapeOk_wheel_false (suits : List Nat) :
    shapeOkB [2, 3, 4, 5, 14] suits = false := by
  have hw : (([2, 3, 4, 5, 14] : List Int) == [2, 3, 4, 5, 14]) = true := by decide
  unfold shapeOkB
  rw [hw]
  simp

theorem patPhase_none_of_shape (strategy : PositionStrategy) (posStr : String)
    (values : List Int) (suits : List Nat) (h : shapeOkB values suits = false) :
    patPhase strategy posStr values suits = none := by
  unfold patPhase
  simp [h]

/-- C4: a hand whose value set is exactly {2,3,4,5,14} (the A-2-3-4-5 wheel)
has no pair and no 5-consecutive run under plain straight detection, yet the
pat-hand raise rule never fires for it, for every suit assignment: in the
single-position variant the pat branch's condition is false (the category
produced is the Draw-1 one, "Draw 1 (2345)", not a pat category), and in the
multi-position variant the pat phase returns nothing at every position (the
category produced is again "Draw 1 (2345)"). -/
theorem wheel_never_pat (hand : List HandCard)
    (h : valuesOf hand = [2, 3, 4, 5, 14]) :
    hasPairB (valuesOf hand) = false ∧
    isStraightB (valuesOf hand) = false ∧
    (shapeOkB (valuesOf hand) (suitsOf hand) &&
      decide ((valuesOf hand).getD 4 0 ≤ 8)) = false ∧
    (evaluateUTGHand hand).category = "Draw 1 (2345)" ∧
    (∀ p : LearningPosition,
      patPhase (strategyFor p) (posName p) (valuesOf hand) (suitsOf hand) = none ∧
      (evaluateHandForPosition hand p).category = "Draw 1 (2345)") := by
  refine ⟨by rw [h]; decide, by rw [h]; decide, ?_, ?_, ?_⟩
  · rw [h, shapeOk_wheel_false]
    rfl
  · unfold evaluateUTGHand
    rw [h]
    unfold utgEval
    rw [shapeOk_wheel_false]
    decide
  · intro p
    have hp : patPhase (strategyFor p) (posName p) (valuesOf hand) (suitsOf hand) = none := by
      rw [h]
      exact patPhase_none_of_shape _ _ _ _ (shapeOk_wheel_false _)
    refine ⟨hp, ?_⟩
    unfold evaluateHandForPosition
    unfold evalCore
    rw [hp, h]
    cases p <;> decide

/-- Witness for C4 at the concrete wheel hand 2♠ 3♥ 4♦ 5♣ A♠. -/
theorem wheel_never_pat_witness :
    valuesOf [⟨2, 0⟩, ⟨3, 1⟩, ⟨4, 2⟩, ⟨5, 3⟩, ⟨14, 0⟩] = [2, 3, 4, 5, 14] ∧
    hasPairB (valuesOf [⟨2, 0⟩, ⟨3, 1⟩, ⟨4, 2⟩, ⟨5, 3⟩, ⟨14, 0⟩]) = false ∧
    isStraightB (valuesOf [⟨2, 0⟩, ⟨3, 1⟩, ⟨4, 2⟩, ⟨5, 3⟩, ⟨14, 0⟩]) = false ∧
    (evaluateUTGHand [⟨2, 0⟩, ⟨3, 1⟩, ⟨4, 2⟩, ⟨5, 3⟩, ⟨14, 0⟩]).category =
      "Draw 1 (2345)" ∧
    patPhase (strategyFor LearningPosition.BTN) (posName LearningPosition.BTN)
      (valuesOf [⟨2, 0⟩, ⟨3, 1⟩, ⟨4, 2⟩, ⟨5, 3⟩, ⟨14, 0⟩])
      (suitsOf [⟨2, 0⟩, ⟨3, 1⟩, ⟨4, 2⟩, ⟨5, 3⟩, ⟨14, 0⟩]) = none ∧
    (evaluateHandForPosition [⟨2, 0⟩, ⟨3, 1⟩, ⟨4, 2⟩, ⟨5, 3⟩, ⟨14, 0⟩]
      LearningPosition.BTN).category = "Draw 1 (2345)" :=
  ⟨by decide,
   (wheel_never_pat [⟨2, 0⟩, ⟨3, 1⟩, ⟨4, 2⟩, ⟨5, 3⟩, ⟨14, 0⟩] (by decide)).1,
   (wheel_never_pat [⟨2, 0⟩, ⟨3, 1⟩, ⟨4, 2⟩, ⟨5, 3⟩, ⟨14, 0⟩] (by decide)).2.1,
   (wheel_never_pat [⟨2, 0⟩, ⟨3, 1⟩, ⟨4, 2⟩, ⟨5, 3⟩, ⟨14, 0⟩] (by decide)).2.2.2.1,
   ((wheel_never_pat [⟨2, 0⟩, ⟨3, 1⟩, ⟨4, 2⟩, ⟨5, 3⟩, ⟨14, 0⟩] (by decide)).2.2.2.2
     LearningPosition.BTN).1,
   ((wheel_never_pat [⟨2, 0⟩, ⟨3, 1⟩, ⟨4, 2⟩, ⟨5, 3⟩, ⟨14, 0⟩] (by decide)).2.2.2.2
     LearningPosition.BTN).2⟩

theorem valuesOf_sorted (hand : List HandCard) :
    List.Sorted (fun a b : Int => a ≤ b) (valuesOf hand) :=
  List.sorted_insertionSort _ _

theorem valuesOf_length (hand : List HandCard) :
    (valuesOf hand).length = hand.length := by
  simp [valuesOf, sortAsc]

theorem uniqOfVals_length_le (v : List Int) :
    (uniqOfVals v).length ≤ v.length := by
  have h : (uniqOfVals v).length = v.dedup.length := by simp [uniqOfVals, sortAsc]
  rw [h]
  exact (List.dedup_sublist v).length_le

theorem nodup_of_not_hasPair (v : List Int) (h : hasPairB v = false) : v.Nodup := by
  rw [List.nodup_iff_count_le_one]
  intro a
  by_contra hc
  push_neg at hc
  have hm : a ∈ v := by
    have : 0 < v.count a := by omega
    exact List.count_pos_iff.mp this
  have ha : v.any (fun x => decide (2 ≤ v.count x)) = true :=
    List.any_eq_true.mpr ⟨a, hm, by simp; omega⟩
  rw [hasPairB] at h
  rw [ha] at h
  cases h

theorem uniqOfVals_eq_self (v : List Int)
    (hs : List.Sorted (fun a b : Int => a ≤ b) v) (hn : v.Nodup) :
    uniqOfVals v = v := by
  unfold uniqOfVals
  rw [List.dedup_eq_self.mpr hn]
  exact hs.insertionSort_eq

theorem fourBestOf_of_take4 (u : List Int) (ht : u.take 4 = [4, 5, 6, 7])
    (hle : u.length ≤ 5) : fourBestOf u = some [4, 5, 6, 7] := by
  have h4 : 4 ≤ u.length := by
    have hlt := congrArg List.length ht
    simp [List.length_take] at hlt
    omega
  have hcase : u.length = 4 ∨ u.length = 5 := by omega
  unfold fourBestOf
  rcases hcase with h4' | h5'
  · rw [if_pos (by simp [h4'])]
    rw [← List.take_of_length_le (le_of_eq h4'), ht]
  · rw [if_neg (by simp [h5']), if_pos (by simp [h5']), ht]

theorem shapeOk_false_of_pair (v : List Int) (su : List Nat)
    (h : hasPairB v = true) : shapeOkB v su = false := by
  unfold shapeOkB
  rw [h]
  rfl

theorem shapeOk_false_of_straight (v : List Int) (su : List Nat)
    (h : isStraightB v = true) : shapeOkB v su = false := by
  unfold shapeOkB
  rw [h]
  simp

theorem patPhase_none_of_scan (s : PositionStrategy) (posStr : String)
    (v : List Int) (su : List Nat) (h : patScan s.patHands.includes v = none) :
    patPhase s posStr v su = none := by
  unfold patPhase
  rw [h]
  simp

theorem utgEval_trap_fold (v : List Int) (su : List Nat)
    (hpatskip : (shapeOkB v su && decide (v.getD 4 0 ≤ 8)) = false)
    (ht4 : utgTrapCond v = true) :
    utgEval v su = utgTrapResult := by
  unfold utgEval
  rw [hpatskip, ht4]
  rfl

theorem draw1Phase_trap (s : PositionStrategy) (posStr : String) (uniq : List Int)
    (hfour : fourBestOf uniq = some [4, 5, 6, 7])
    (hex : s.draw1Hands.excludes.contains "7654" = true) :
    draw1Phase s posStr uniq = some (mkDraw1Excluded s posStr) := by
  unfold draw1Phase
  rw [hfour]
  have h1 : isStraightB [4, 5, 6, 7] = false := by decide
  have h2 : draw1ExclCond s.draw1Hands.excludes [4, 5, 6, 7] = true := by
    unfold draw1ExclCond
    have hex' : "7654" ∈ s.draw1Hands.excludes := by simpa using hex
    simp [hex']
    decide
  simp [h1, h2]

theorem evalCore_trap_fold (s : PositionStrategy) (posStr : String)
    (v : List Int) (su : List Nat)
    (hpat : patPhase s posStr v su = none)
    (hfour : fourBestOf (uniqOfVals v) = some [4, 5, 6, 7])
    (hex : s.draw1Hands.excludes.contains "7654" = true) :
    evalCore s posStr v su = mkDraw1Excluded s posStr := by
  unfold evalCore
  rw [hpat, draw1Phase_trap s posStr _ hfour hex]

theorem trap_tail (hand : List HandCard)
    (hpatU : (shapeOkB (valuesOf hand) (suitsOf hand) &&
      decide ((valuesOf hand).getD 4 0 ≤ 8)) = false)
    (ht4 : utgTrapCond (valuesOf hand) = true)
    (hpatM : ∀ p : LearningPosition,
      patPhase (strategyFor p) (posName p) (valuesOf hand) (suitsOf hand) = none)
    (hfour : fourBestOf (uniqOfVals (valuesOf hand)) = some [4, 5, 6, 7]) :
    (evaluateUTGHand hand).isPlayable = false ∧
    (evaluateUTGHand hand).correctAction = "fold" ∧
    (∀ p : LearningPosition,
      (evaluateHandForPosition hand p).isPlayable = false ∧
      (evaluateHandForPosition hand p).correctAction = "fold") := by
  have hU : evaluateUTGHand hand = utgTrapResult := by
    unfold evaluateUTGHand
    exact utgEval_trap_fold _ _ hpatU ht4
  refine ⟨by rw [hU]; rfl, by rw [hU]; rfl, ?_⟩
  intro p
  have hex : (strategyFor p).draw1Hands.excludes.contains "7654" = true := by
    cases p <;> decide
  have hM : evaluateHandForPosition hand p =
      mkDraw1Excluded (strategyFor p) (posName p) := by
    unfold evaluateHandForPosition
    exact evalCore_trap_fold _ _ _ _ (hpatM p) hfour hex
  exact ⟨by rw [hM]; rfl, by rw [hM]; rfl⟩

theorem interpret8s_false (e : Int) (h : 9 ≤ e) :
    interpretBetterHand "8s+" [4, 5, 6, 7, e] = false := by
  unfold interpretBetterHand
  rw [if_pos (by decide : matchNsPlus "8s+" = true)]
  have hmax : listMax [4, 5, 6, 7, e] = max 7 e := by
    unfold listMax
    simp only [List.foldl]
    rw [max_eq_right (by norm_num : (-1000000000 : Int) ≤ 4),
        max_eq_right (by norm_num : (4 : Int) ≤ 5),
        max_eq_right (by norm_num : (5 : Int) ≤ 6),
        max_eq_right (by norm_num : (6 : Int) ≤ 7)]
  rw [hmax]
  have hc : charDigitVal ("8s+".data.headD '0') = 8 := by decide
  rw [hc]
  simp [max_le_iff]
  omega

theorem patScan_trap_none (p : LearningPosition) (e : Int) (h : 9 ≤ e) :
    patScan (strategyFor p).patHands.includes [4, 5, 6, 7, e] = none := by
  have h8 := interpret8s_false e h
  have l1 : interpretBetterHand "96543" [4, 5, 6, 7, e] = false := rfl
  have l2 : interpretBetterHand "97654" [4, 5, 6, 7, e] = false := rfl
  have l3 : interpretBetterHand "T9875" [4, 5, 6, 7, e] = false := rfl
  have l4 : interpretBetterHand "T8765" [4, 5, 6, 7, e] = false := rfl
  have l5 : interpretBetterHand "T7654" [4, 5, 6, 7, e] = false := rfl
  have l6 : interpretBetterHand "T6543" [4, 5, 6, 7, e] = false := rfl
  cases p
  case UTG =>
    rw [show (strategyFor LearningPosition.UTG).patHands.includes = ["8s+"] from by decide]
    simp [patScan, List.find?, h8]
  case HJ =>
    rw [show (strategyFor LearningPosition.HJ).patHands.includes = ["8s+"] from by decide]
    simp [patScan, List.find?, h8]
  case CO =>
    rw [show (strategyFor LearningPosition.CO).patHands.includes =
      ["8s+", "96543", "97654"] from by decide]
    simp [patScan, List.find?, h8, l1, l2]
  case BTN =>
    rw [show (strategyFor LearningPosition.BTN).patHands.includes =
      ["8s+", "96543", "97654", "T9875", "T8765", "T7654", "T6543"] from by decide]
    simp [patScan, List.find?, h8, l1, l2, l3, l4, l5, l6]
  case SB =>
    rw [show (strategyFor LearningPosition.SB).patHands.includes =
      ["8s+", "96543", "97654", "T9875", "T8765", "T7654", "T6543"] from by decide]
    simp [patScan, List.find?, h8, l1, l2, l3, l4, l5, l6]
  case BB =>
    rw [show (strategyFor LearningPosition.BB).patHands.includes =
      ["8s+", "96543", "97654", "T9875", "T8765", "T7654", "T6543"] from by decide]
    simp [patScan, List.find?, h8, l1, l2, l3, l4, l5, l6]

/-- C1: every 5-card hand whose four lowest distinct values are exactly
{4,5,6,7} is classified not playable with action fold, regardless of the
fifth card and of the suits — in the single-position variant (where the
explicit trap-hand branch fires) and at every position of the
multi-position variant under the built-in strategies (where the inherited
Draw-1 exclusion "7654" fires), overriding any include pattern. -/
theorem trap_hand_always_folds (hand : List HandCard)
    (hlen : hand.length = 5)
    (htrap : (uniqOfVals (valuesOf hand)).take 4 = [4, 5, 6, 7]) :
    (evaluateUTGHand hand).isPlayable = false ∧
    (evaluateUTGHand hand).correctAction = "fold" ∧
    (∀ p : LearningPosition,
      (evaluateHandForPosition hand p).isPlayable = false ∧
      (evaluateHandForPosition hand p).correctAction = "fold") := by
  have hlen5 : (valuesOf hand).length = 5 := by rw [valuesOf_length, hlen]
  have hUniqLe : (uniqOfVals (valuesOf hand)).length ≤ 5 := by
    calc (uniqOfVals (valuesOf hand)).length ≤ (valuesOf hand).length :=
          uniqOfVals_length_le _
    _ = 5 := hlen5
  have hfour : fourBestOf (uniqOfVals (valuesOf hand)) = some [4, 5, 6, 7] :=
    fourBestOf_of_take4 _ htrap hUniqLe
  have h4le : 4 ≤ (uniqOfVals (valuesOf hand)).length := by
    have hlt := congrArg List.length htrap
    simp [List.length_take] at hlt
    omega
  by_cases hp : hasPairB (valuesOf hand) = true
  · -- paired hand: the pat branch is skipped outright
    have hpatU : (shapeOkB (valuesOf hand) (suitsOf hand) &&
        decide ((valuesOf hand).getD 4 0 ≤ 8)) = false := by
      rw [shapeOk_false_of_pair _ _ hp]
      rfl
    have ht4 : utgTrapCond (valuesOf hand) = true := by
      unfold utgTrapCond
      rw [htrap]
      simp [h4le]
    have hpatM : ∀ p : LearningPosition,
        patPhase (strategyFor p) (posName p) (valuesOf hand) (suitsOf hand) = none :=
      fun p => patPhase_none_of_shape _ _ _ _ (shapeOk_false_of_pair _ _ hp)
    exact trap_tail hand hpatU ht4 hpatM hfour
  · -- no pair: the hand is 4,5,6,7,e with e distinct and at least 8
    have hp' : hasPairB (valuesOf hand) = false := by
      cases hb : hasPairB (valuesOf hand)
      · rfl
      · exact absurd hb hp
    have hnod := nodup_of_not_hasPair _ hp'
    have hvu : uniqOfVals (valuesOf hand) = valuesOf hand :=
      uniqOfVals_eq_self _ (valuesOf_sorted hand) hnod
    rw [hvu] at htrap
    obtain ⟨e, he⟩ := List.length_eq_one.mp
      (show ((valuesOf hand).drop 4).length = 1 by simp [hlen5])
    have hv : valuesOf hand = [4, 5, 6, 7, e] := by
      conv_lhs => rw [← List.take_append_drop 4 (valuesOf hand)]
      rw [htrap, he]
      rfl
    have hsor := valuesOf_sorted hand
    rw [hv] at hsor hnod
    have h7e : (7 : Int) ≤ e := by
      simp [List.sorted_cons] at hsor
      omega
    have h8e : (8 : Int) ≤ e := by
      simp [List.nodup_cons] at hnod
      omega
    have ht4 : utgTrapCond (valuesOf hand) = true := by
      unfold utgTrapCond
      rw [hvu, hv]
      rfl
    by_cases he8 : e = 8
    · -- straight 4-5-6-7-8: the shape gate fails
      subst he8
      have hstr : isStraightB (valuesOf hand) = true := by rw [hv]; decide
      have hpatU : (shapeOkB (valuesOf hand) (suitsOf hand) &&
          decide ((valuesOf hand).getD 4 0 ≤ 8)) = false := by
        rw [shapeOk_false_of_straight _ _ hstr]
        rfl
      have hpatM : ∀ p : LearningPosition,
          patPhase (strategyFor p) (posName p) (valuesOf hand) (suitsOf hand) = none :=
        fun p => patPhase_none_of_shape _ _ _ _ (shapeOk_false_of_straight _ _ hstr)
      exact trap_tail hand hpatU ht4 hpatM hfour
    · -- fifth card strictly above 8: high card fails the pat thresholds
      have h9e : (9 : Int) ≤ e := by omega
      have hd : decide ((valuesOf hand).getD 4 0 ≤ 8) = false := by
        rw [hv]
        simp
        omega
      have hpatU : (shapeOkB (valuesOf hand) (suitsOf hand) &&
          decide ((valuesOf hand).getD 4 0 ≤ 8)) = false := by
        rw [hd, Bool.and_false]
      have hpatM : ∀ p : LearningPosition,
          patPhase (strategyFor p) (posName p) (valuesOf hand) (suitsOf hand) = none := by
        intro p
        rw [hv]
        exact patPhase_none_of_scan _ _ _ _ (patScan_trap_none p e h9e)
      exact trap_tail hand hpatU ht4 hpatM hfour

/-- Witness for C1 at the concrete hand 4♠ 5♥ 6♦ 7♣ 9♠. -/
theorem trap_hand_always_folds_witness :
    ([⟨4, 0⟩, ⟨5, 1⟩, ⟨6, 2⟩, ⟨7, 3⟩, ⟨9, 0⟩] : List HandCard).length = 5 ∧
    (uniqOfVals (valuesOf [⟨4, 0⟩, ⟨5, 1⟩, ⟨6, 2⟩, ⟨7, 3⟩, ⟨9, 0⟩])).take 4 =
      [4, 5, 6, 7] ∧
    (evaluateUTGHand [⟨4, 0⟩, ⟨5, 1⟩, ⟨6, 2⟩, ⟨7, 3⟩, ⟨9, 0⟩]).isPlayable = false ∧
    (evaluateUTGHand [⟨4, 0⟩, ⟨5, 1⟩, ⟨6, 2⟩, ⟨7, 3⟩, ⟨9, 0⟩]).correctAction = "fold" ∧
    (evaluateHandForPosition [⟨4, 0⟩, ⟨5, 1⟩, ⟨6, 2⟩, ⟨7, 3⟩, ⟨9, 0⟩]
      LearningPosition.BTN).isPlayable = false ∧
    (evaluateHandForPosition [⟨4, 0⟩, ⟨5, 1⟩, ⟨6, 2⟩, ⟨7, 3⟩, ⟨9, 0⟩]
      LearningPosition.BTN).correctAction = "fold" :=
  ⟨rfl, by decide,
   (trap_hand_always_folds [⟨4, 0⟩, ⟨5, 1⟩, ⟨6, 2⟩, ⟨7, 3⟩, ⟨9, 0⟩] rfl (by decide)).1,
   (trap_hand_always_folds [⟨4, 0⟩, ⟨5, 1⟩, ⟨6, 2⟩, ⟨7, 3⟩, ⟨9, 0⟩] rfl (by decide)).2.1,
   ((trap_hand_always_folds [⟨4, 0⟩, ⟨5, 1⟩, ⟨6, 2⟩, ⟨7, 3⟩, ⟨9, 0⟩] rfl
      (by decide)).2.2 LearningPosition.BTN).1,
   ((trap_hand_always_folds [⟨4, 0⟩, ⟨5, 1⟩, ⟨6, 2⟩, ⟨7, 3⟩, ⟨9, 0⟩] rfl
      (by decide)).2.2 LearningPosition.BTN).2⟩

theorem merge_pat_includes (sP sC : PositionStrategy) :
    (mergeStrategies sP sC).patHands.includes =
      sP.patHands.includes ++ sC.patHands.includes := rfl

theorem merge_draw1_includes (sP sC : PositionStrategy) :
    (mergeStrategies sP sC).draw1Hands.includes =
      sP.draw1Hands.includes ++ sC.draw1Hands.includes := rfl

theorem merge_draw1_excludes (sP sC : PositionStrategy) :
    (mergeStrategies sP sC).draw1Hands.excludes =
      sP.draw1Hands.excludes ++ sC.draw1Hands.excludes := rfl

theorem merge_draw2_includes (sP sC : PositionStrategy) :
    (mergeStrategies sP sC).draw2Hands.includes =
      sP.draw2Hands.includes ++ sC.draw2Hands.includes := rfl

theorem find?_append_some {α : Type} (p : α → Bool) (l₁ l₂ : List α) (a : α)
    (h : l₁.find? p = some a) : (l₁ ++ l₂).find? p = some a := by
  rw [List.find?_append, h]
  rfl

theorem find?_append_of_none {α : Type} (p : α → Bool) (l₁ l₂ : List α)
    (h : l₁.find? p = none) : (l₁ ++ l₂).find? p = l₂.find? p := by
  rw [List.find?_append, h]
  rfl

theorem contains_append_left (l₁ l₂ : List String) (a : String)
    (h : l₁.contains a = true) : (l₁ ++ l₂).contains a = true := by
  simp at h ⊢
  exact Or.inl h

theorem evalCore_pat_some (s : PositionStrategy) (p : String) (v : List Int)
    (su : List Nat) (r : EvalResultPos) (h : patPhase s p v su = some r) :
    evalCore s p v su = r := by
  unfold evalCore
  rw [h]

theorem evalCore_d1_some (s : PositionStrategy) (p : String) (v : List Int)
    (su : List Nat) (r : EvalResultPos) (hpat : patPhase s p v su = none)
    (hd1 : draw1Phase s p (uniqOfVals v) = some r) : evalCore s p v su = r := by
  unfold evalCore
  rw [hpat, hd1]

theorem evalCore_d2_some (s : PositionStrategy) (p : String) (v : List Int)
    (su : List Nat) (r : EvalResultPos) (hpat : patPhase s p v su = none)
    (hd1 : draw1Phase s p (uniqOfVals v) = none)
    (hd2 : draw2Phase s p v (uniqOfVals v) = some r) : evalCore s p v su = r := by
  unfold evalCore
  rw [hpat, hd1, hd2]

theorem evalCore_default (s : PositionStrategy) (p : String) (v : List Int)
    (su : List Nat) (hpat : patPhase s p v su = none)
    (hd1 : draw1Phase s p (uniqOfVals v) = none)
    (hd2 : draw2Phase s p v (uniqOfVals v) = none) :
    evalCore s p v su = mkFoldDefault s p := by
  unfold evalCore
  rw [hpat, hd1, hd2]

theorem patPhase_some_playable (s : PositionStrategy) (p : String) (v : List Int)
    (su : List Nat) (r : EvalResultPos) (h : patPhase s p v su = some r) :
    r.isPlayable = true := by
  unfold patPhase at h
  split at h
  · split at h
    next => cases h; rfl
    next => cases h
  · cases h

theorem patPhase_some_iff (s : PositionStrategy) (p : String) (v : List Int)
    (su : List Nat) :
    (∃ r, patPhase s p v su = some r) ↔
    (shapeOkB v su = true ∧ ∃ pat, patScan s.patHands.includes v = some pat) := by
  unfold patPhase
  constructor
  · rintro ⟨r, h⟩
    split at h
    next hcond =>
      split at h
      next pat hp => exact ⟨hcond, pat, hp⟩
      next => cases h
    next hcond => cases h
  · rintro ⟨hs, pat, hp⟩
    rw [if_pos hs, hp]
    exact ⟨_, rfl⟩

theorem patScan_append_some (l₁ l₂ : List String) (v : List Int) (a : String)
    (h : patScan l₁ v = some a) : patScan (l₁ ++ l₂) v = some a := by
  unfold patScan at h ⊢
  rw [List.find?_append, h]
  rfl

theorem fourBestOf_not_straight (uniq fb : List Int)
    (h : fourBestOf uniq = some fb) : isStraightB fb = false := by
  have hlen : fb.length = 4 := by
    unfold fourBestOf at h
    by_cases h4 : uniq.length = 4
    · rw [if_pos (by simp [h4])] at h
      cases h
      exact h4
    · rw [if_neg (by simp [h4])] at h
      by_cases h5 : uniq.length = 5
      · rw [if_pos (by simp [h5])] at h
        cases h
        simp [List.length_take, h5]
      · rw [if_neg (by simp [h5])] at h
        cases h
  unfold isStraightB
  rw [if_pos (by omega)]

theorem draw1Phase_none_of_nofb (s : PositionStrategy) (p : String) (uniq : List Int)
    (h : fourBestOf uniq = none) : draw1Phase s p uniq = none := by
  unfold draw1Phase
  rw [h]

theorem draw1Phase_some_inv (s : PositionStrategy) (p : String) (uniq fb : List Int)
    (r : EvalResultPos) (hfb : fourBestOf uniq = some fb)
    (h : draw1Phase s p uniq = some r) :
    (draw1ExclCond s.draw1Hands.excludes fb = true ∧ r = mkDraw1Excluded s p) ∨
    (draw1ExclCond s.draw1Hands.excludes fb = false ∧
     ((∃ pat, s.draw1Hands.includes.find? (fun q => draw1Hit q fb) = some pat ∧
        r = mkDraw1Include p fb pat) ∨
      (s.draw1Hands.includes.find? (fun q => draw1Hit q fb) = none ∧
       s.draw1Hands.includes.contains (joinVals fb) = true ∧
       r = mkDraw1Specific p fb))) := by
  unfold draw1Phase at h
  simp only [hfb] at h
  split at h
  next => cases h
  next hstr =>
    split at h
    next hexc => exact Or.inl ⟨hexc, by cases h; rfl⟩
    next hexc =>
      refine Or.inr ⟨by simpa using hexc, ?_⟩
      split at h
      next pat hp => exact Or.inl ⟨pat, hp, by cases h; rfl⟩
      next hp =>
        split at h
        next hc => exact Or.inr ⟨hp, by simpa using hc, by cases h; rfl⟩
        next => cases h

theorem draw1Phase_none_inv (s : PositionStrategy) (p : String) (uniq fb : List Int)
    (hfb : fourBestOf uniq = some fb) (hstr : isStraightB fb = false)
    (h : draw1Phase s p uniq = none) :
    draw1ExclCond s.draw1Hands.excludes fb = false ∧
    s.draw1Hands.includes.find? (fun q => draw1Hit q fb) = none ∧
    s.draw1Hands.includes.contains (joinVals fb) = false := by
  unfold draw1Phase at h
  simp only [hfb] at h
  split at h
  next hstr' => rw [hstr] at hstr'; cases hstr'
  next =>
    split at h
    next => cases h
    next hexc =>
      refine ⟨by simpa using hexc, ?_⟩
      split at h
      next => cases h
      next hp =>
        split at h
        next => cases h
        next hc => exact ⟨hp, by simpa using hc⟩

theorem draw1Phase_eq_include (s : PositionStrategy) (p : String) (uniq fb : List Int)
    (pat : String) (hfb : fourBestOf uniq = some fb) (hstr : isStraightB fb = false)
    (hexc : draw1ExclCond s.draw1Hands.excludes fb = false)
    (hfind : s.draw1Hands.includes.find? (fun q => draw1Hit q fb) = some pat) :
    draw1Phase s p uniq = some (mkDraw1Include p fb pat) := by
  unfold draw1Phase
  simp only [hfb, hstr, hexc, hfind]
  rfl

theorem draw1Phase_eq_specific (s : PositionStrategy) (p : String) (uniq fb : List Int)
    (hfb : fourBestOf uniq = some fb) (hstr : isStraightB fb = false)
    (hexc : draw1ExclCond s.draw1Hands.excludes fb = false)
    (hfind : s.draw1Hands.includes.find? (fun q => draw1Hit q fb) = none)
    (hcont : s.draw1Hands.includes.contains (joinVals fb) = true) :
    draw1Phase s p uniq = some (mkDraw1Specific p fb) := by
  unfold draw1Phase
  simp only [hfb, hstr, hexc, hfind, hcont]
  rfl

theorem draw1Phase_eq_none (s : PositionStrategy) (p : String) (uniq fb : List Int)
    (hfb : fourBestOf uniq = some fb) (hstr : isStraightB fb = false)
    (hexc : draw1ExclCond s.draw1Hands.excludes fb = false)
    (hfind : s.draw1Hands.includes.find? (fun q => draw1Hit q fb) = none)
    (hcont : s.draw1Hands.includes.contains (joinVals fb) = false) :
    draw1Phase s p uniq = none := by
  unfold draw1Phase
  simp only [hfb, hstr, hexc, hfind, hcont]
  rfl

theorem draw2Phase_some_playable (s : PositionStrategy) (p : String)
    (v uniq : List Int) (r : EvalResultPos) (h : draw2Phase s p v uniq = some r) :
    r.isPlayable = true := by
  unfold draw2Phase at h
  split at h
  next => cases h
  next =>
    split at h
    next => cases h; rfl
    next => cases h

theorem draw2Phase_some_inv (s : PositionStrategy) (p : String) (v uniq : List Int)
    (r : EvalResultPos) (h : draw2Phase s p v uniq = some r) :
    ∃ cand, draw2Cand v uniq = some cand ∧
      ∃ pat, s.draw2Hands.includes.find?
        (fun q => interpretBetterHand q cand) = some pat := by
  unfold draw2Phase at h
  split at h
  next => cases h
  next cand hcand =>
    split at h
    next pat hp => exact ⟨cand, hcand, pat, hp⟩
    next => cases h

theorem draw2Phase_eq_some (s : PositionStrategy) (p : String) (v uniq : List Int)
    (cand : List Int) (pat : String) (hcand : draw2Cand v uniq = some cand)
    (hfind : s.draw2Hands.includes.find?
      (fun q => interpretBetterHand q cand) = some pat) :
    draw2Phase s p v uniq = some (mkDraw2Result p cand pat) := by
  unfold draw2Phase
  simp only [hcand, hfind]

theorem draw1ExclCond_append_false (exP exC : List String) (fb : List Int)
    (hP : draw1ExclCond exP fb = false)
    (hC : ((joinVals fb == "4567") &&
           (exC.contains "4567" || exC.contains "7654")) = false) :
    draw1ExclCond (exP ++ exC) fb = false := by
  unfold draw1ExclCond at hP ⊢
  cases h4 : (joinVals fb == "4567") with
  | false => simp [h4]
  | true =>
    have hj : joinVals fb = "4567" := by simpa using h4
    rw [hj] at hP hC ⊢
    simp at hP hC ⊢
    tauto

/-- Formalisation of the claim's carve-out "h matches an exclude entry
declared by C itself": the hand's four-card draw is the literal 4567 and the
child's own draw-1 excludes name "4567" or its display form "7654" — the
only exclude entries the Draw-1 exclusion fold ever acts on (pat and draw-2
excludes are never read by the classifier). -/
def childExclusionB (own : List String) (uniq : List Int) : Bool :=
  match fourBestOf uniq with
  | some fb => (joinVals fb == "4567") &&
      (own.contains "4567" || own.contains "7654")
  | none => false

theorem evalCore_merge_playable (sP sC : PositionStrategy) (pP pC : String)
    (v : List Int) (su : List Nat)
    (hP : (evalCore sP pP v su).isPlayable = true)
    (hX : childExclusionB sC.draw1Hands.excludes (uniqOfVals v) = false) :
    (evalCore (mergeStrategies sP sC) pC v su).isPlayable = true := by
  cases hpatC : patPhase (mergeStrategies sP sC) pC v su with
  | some rC =>
    rw [evalCore_pat_some _ _ _ _ _ hpatC]
    exact patPhase_some_playable _ _ _ _ _ hpatC
  | none =>
    have hpatP : patPhase sP pP v su = none := by
      cases hpp : patPhase sP pP v su with
      | none => rfl
      | some rP =>
        obtain ⟨hs, pat, hscan⟩ := (patPhase_some_iff sP pP v su).mp ⟨rP, hpp⟩
        obtain ⟨rC, hrC⟩ := (patPhase_some_iff (mergeStrategies sP sC) pC v su).mpr
          ⟨hs, pat, by
            rw [merge_pat_includes]
            exact patScan_append_some _ _ _ _ hscan⟩
        rw [hrC] at hpatC
        cases hpatC
    cases hfb : fourBestOf (uniqOfVals v) with
    | none =>
      have hd1P := draw1Phase_none_of_nofb sP pP _ hfb
      have hd1C := draw1Phase_none_of_nofb (mergeStrategies sP sC) pC _ hfb
      cases hd2P : draw2Phase sP pP v (uniqOfVals v) with
      | none =>
        rw [evalCore_default _ _ _ _ hpatP hd1P hd2P] at hP
        exact absurd hP (by simp [mkFoldDefault])
      | some r2 =>
        obtain ⟨cand, hcand, pat, hfind⟩ := draw2Phase_some_inv _ _ _ _ _ hd2P
        have hd2C : draw2Phase (mergeStrategies sP sC) pC v (uniqOfVals v) =
            some (mkDraw2Result pC cand pat) :=
          draw2Phase_eq_some _ _ _ _ _ _ hcand
            (by rw [merge_draw2_includes]; exact find?_append_some _ _ _ _ hfind)
        rw [evalCore_d2_some _ _ _ _ _ hpatC hd1C hd2C]
        rfl
    | some fb =>
      have hstr : isStraightB fb = false := fourBestOf_not_straight _ _ hfb
      have hXfb : ((joinVals fb == "4567") &&
          (sC.draw1Hands.excludes.contains "4567" ||
           sC.draw1Hands.excludes.contains "7654")) = false := by
        unfold childExclusionB at hX
        simp only [hfb] at hX
        exact hX
      cases hd1P : draw1Phase sP pP (uniqOfVals v) with
      | some r1 =>
        rcases draw1Phase_some_inv _ _ _ _ _ hfb hd1P with ⟨hexcT, hr⟩ | ⟨hexcF, hrest⟩
        · rw [evalCore_d1_some _ _ _ _ _ hpatP hd1P, hr] at hP
          exact absurd hP (by simp [mkDraw1Excluded])
        · have hexcC : draw1ExclCond
              (mergeStrategies sP sC).draw1Hands.excludes fb = false := by
            rw [merge_draw1_excludes]
            exact draw1ExclCond_append_false _ _ _ hexcF hXfb
          rcases hrest with ⟨pat, hfind, hr⟩ | ⟨hfindN, hcont, hr⟩
          · have hd1C : draw1Phase (mergeStrategies sP sC) pC (uniqOfVals v) =
                some (mkDraw1Include pC fb pat) :=
              draw1Phase_eq_include _ pC _ _ _ hfb hstr hexcC
                (by rw [merge_draw1_includes]; exact find?_append_some _ _ _ _ hfind)
            rw [evalCore_d1_some _ _ _ _ _ hpatC hd1C]
            rfl
          · cases hfC : (mergeStrategies sP sC).draw1Hands.includes.find?
                (fun q => draw1Hit q fb) with
            | some patC =>
              have hd1C := draw1Phase_eq_include _ pC _ _ _ hfb hstr hexcC hfC
              rw [evalCore_d1_some _ _ _ _ _ hpatC hd1C]
              rfl
            | none =>
              have hcontC : (mergeStrategies sP sC).draw1Hands.includes.contains
                  (joinVals fb) = true := by
                rw [merge_draw1_includes]
                exact contains_append_left _ _ _ hcont
              have hd1C := draw1Phase_eq_specific _ pC _ _ hfb hstr hexcC hfC hcontC
              rw [evalCore_d1_some _ _ _ _ _ hpatC hd1C]
              rfl
      | none =>
        obtain ⟨hexcF, hfindN, hcontF⟩ := draw1Phase_none_inv _ _ _ _ hfb hstr hd1P
        have hexcC : draw1ExclCond
            (mergeStrategies sP sC).draw1Hands.excludes fb = false := by
          rw [merge_draw1_excludes]
          exact draw1ExclCond_append_false _ _ _ hexcF hXfb
        cases hfC : (mergeStrategies sP sC).draw1Hands.includes.find?
            (fun q => draw1Hit q fb) with
        | some patC =>
          have hd1C := draw1Phase_eq_include _ pC _ _ _ hfb hstr hexcC hfC
          rw [evalCore_d1_some _ _ _ _ _ hpatC hd1C]
          rfl
        | none =>
          cases hcC : (mergeStrategies sP sC).draw1Hands.includes.contains
              (joinVals fb) with
          | true =>
            have hd1C := draw1Phase_eq_specific _ pC _ _ hfb hstr hexcC hfC hcC
            rw [evalCore_d1_some _ _ _ _ _ hpatC hd1C]
            rfl
          | false =>
            have hd1C := draw1Phase_eq_none _ pC _ _ hfb hstr hexcC hfC hcC
            cases hd2P : draw2Phase sP pP v (uniqOfVals v) with
            | none =>
              rw [evalCore_default _ _ _ _ hpatP hd1P hd2P] at hP
              exact absurd hP (by simp [mkFoldDefault])
            | some r2 =>
              obtain ⟨cand, hcand, pat, hfind⟩ := draw2Phase_some_inv _ _ _ _ _ hd2P
              have hd2C : draw2Phase (mergeStrategies sP sC) pC v (uniqOfVals v) =
                  some (mkDraw2Result pC cand pat) :=
                draw2Phase_eq_some _ _ _ _ _ _ hcand
                  (by rw [merge_draw2_includes]; exact find?_append_some _ _ _ _ hfind)
              rw [evalCore_d2_some _ _ _ _ _ hpatC hd1C hd2C]
              rfl

/-- C8: inheritance monotonicity — when the resolver derives the child
position's effective strategy by merging the resolved parent strategy with
the child's own declaration, every hand playable under the parent's resolved
ranges remains playable under the child's resolved ranges, unless the hand
matches a draw-1 exclude entry declared by the child itself (the literal
4567 draw with the child declaring "4567" or "7654"). -/
theorem inheritance_monotonic (cfg : List PositionStrategy) (fuel : Nat)
    (childName parentName pP pC : String)
    (sCown resolvedP resolvedC : PositionStrategy) (hand : List HandCard)
    (hfind : cfg.find? (fun s => s.position == childName) = some sCown)
    (hinh : sCown.inheritsFrom = some parentName)
    (hresP : getFullStrategyFuel cfg fuel parentName = some resolvedP)
    (hresC : getFullStrategyFuel cfg (fuel + 1) childName = some resolvedC)
    (hP : (evalCore resolvedP pP (valuesOf hand) (suitsOf hand)).isPlayable = true)
    (hX : childExclusionB sCown.draw1Hands.excludes
      (uniqOfVals (valuesOf hand)) = false) :
    (evalCore resolvedC pC (valuesOf hand) (suitsOf hand)).isPlayable = true := by
  have hstep : getFullStrategyFuel cfg (fuel + 1) childName =
      (match cfg.find? (fun s => s.position == childName) with
       | none => cfg.head?
       | some strategy =>
         match strategy.inheritsFrom with
         | none => some strategy
         | some parent =>
           match getFullStrategyFuel cfg fuel parent with
           | none => none
           | some parentStrategy => some (mergeStrategies parentStrategy strategy)) :=
    rfl
  rw [hstep] at hresC
  simp only [hfind, hinh, hresP] at hresC
  have hmerge : resolvedC = mergeStrategies resolvedP sCown :=
    (Option.some.inj hresC).symm
  rw [hmerge]
  exact evalCore_merge_playable _ _ _ _ _ _ hP hX

/-- Witness for C8: HJ inherits from UTG in the built-in configuration, and
the pat 8-high hand 8-5-4-3-2 playable at UTG stays playable under HJ's
resolved strategy. -/
theorem inheritance_monotonic_witness :
    positionStrategies.find? (fun s => s.position == "HJ") = some hjStrategy ∧
    hjStrategy.inheritsFrom = some "UTG" ∧
    getFullStrategyFuel positionStrategies 1 "UTG" = some utgStrategy ∧
    getFullStrategyFuel positionStrategies 2 "HJ" =
      some (mergeStrategies utgStrategy hjStrategy) ∧
    (evalCore utgStrategy "UTG"
      (valuesOf [⟨8, 0⟩, ⟨5, 1⟩, ⟨4, 2⟩, ⟨3, 3⟩, ⟨2, 0⟩])
      (suitsOf [⟨8, 0⟩, ⟨5, 1⟩, ⟨4, 2⟩, ⟨3, 3⟩, ⟨2, 0⟩])).isPlayable = true ∧
    childExclusionB hjStrategy.draw1Hands.excludes
      (uniqOfVals (valuesOf [⟨8, 0⟩, ⟨5, 1⟩, ⟨4, 2⟩, ⟨3, 3⟩, ⟨2, 0⟩])) = false ∧
    (evalCore (mergeStrategies utgStrategy hjStrategy) "HJ"
      (valuesOf [⟨8, 0⟩, ⟨5, 1⟩, ⟨4, 2⟩, ⟨3, 3⟩, ⟨2, 0⟩])
      (suitsOf [⟨8, 0⟩, ⟨5, 1⟩, ⟨4, 2⟩, ⟨3, 3⟩, ⟨2, 0⟩])).isPlayable = true :=
  ⟨by decide, by decide, by decide, by decide, by decide, by decide,
   inheritance_monotonic positionStrategies 1 "HJ" "UTG" "UTG" "HJ"
     hjStrategy utgStrategy (mergeStrategies utgStrategy hjStrategy)
     [⟨8, 0⟩, ⟨5, 1⟩, ⟨4, 2⟩, ⟨3, 3⟩, ⟨2, 0⟩]
     (by decide) (by decide) (by decide) (by decide) (by decide) (by decide)⟩

end TripleDraw
